import Mathlib

/-!
Shallow embedding of the CRYPTOPRO service-worker sources
(`src/service-worker.js` and `src/sw.js`) and proofs about the
caching / offline-sync policies they implement.

Conventions:
* JavaScript strings are Lean `String`s; `String.prototype.includes`
  is modelled by `jsIncludes` below.
* The Cache Storage API is modelled as association lists keyed by the
  request's URL.  Per the web platform contract, `Cache.put` rejects
  non-GET requests and `CacheStorage.match` never matches a non-GET
  request (default `ignoreMethod = false`).
* A network fetch outcome is an `Option Response` (`none` = the fetch
  promise rejected: offline, DNS failure, timeout).
* Timestamps (`Date.now()`) are naturals supplied by the caller.
-/

/-- `pat` is a prefix of `s` (on character lists). -/
def listStartsWith : List Char → List Char → Bool
  | _, [] => true
  | [], _ :: _ => false
  | a :: as, b :: bs => a == b && listStartsWith as bs

/-- `pat` occurs contiguously somewhere in `s` (on character lists). -/
def charsContain (pat : List Char) : List Char → Bool
  | [] => listStartsWith [] pat
  | c :: t => listStartsWith (c :: t) pat || charsContain pat t

/-- JavaScript `s.includes(pat)`: substring containment. -/
def jsIncludes (s pat : String) : Bool := charsContain pat.data s.data

/-- One entry of the `'offline-data'` cache: a stored `Request` URL and the
stored `Response` body text. -/
structure QEntry where
  url  : String
  body : String
deriving DecidableEq, Repr

/-- `key.url.includes('/api/trades')` — the filter used by
`syncOfflineTrades` (service-worker.js line 186). -/
def isTradeEntry (e : QEntry) : Bool := jsIncludes e.url ("/api/trades")

/-- A message posted to UI clients via `client.postMessage`
(service-worker.js lines 214-217, 228-231, 267-270). -/
inductive SyncMsg
  | syncCompleted (synced total : Nat)
  | syncFailed
  | offlineDataSaved (id : Nat) (dtype : String)
deriving DecidableEq, Repr

/-- Outcome of one entry of the `Promise.allSettled` batch in
`syncOfflineTrades` (service-worker.js lines 188-207): the per-entry
promise fulfils (after deleting the entry from the cache) when the
server round-trip succeeded, and rejects otherwise. -/
inductive Settled
  | fulfilled (e : QEntry)
  | rejected
deriving DecidableEq, Repr

/-- Whether a settled result has `status === 'fulfilled'`
(service-worker.js line 209). -/
def Settled.isFulfilled : Settled → Bool
  | .fulfilled _ => true
  | .rejected => false

/-- One queued entry's attempt inside the `Promise.allSettled` batch
(service-worker.js lines 189-206): read the cached body, POST it to
`/api/trades/sync`; on `serverResponse.ok` delete the cache entry and
fulfil, otherwise throw (reject).  `serverOk e` is the outcome of the
server round-trip for entry `e` (network success and a 2xx status). -/
def attemptEntry (serverOk : QEntry → Bool) (e : QEntry) : Settled :=
  if serverOk e then Settled.fulfilled e else Settled.rejected

/-- The cache key a fulfilled attempt deleted (`cache.delete(request)`,
service-worker.js line 201); a rejected attempt deleted nothing. -/
def settledUrl : Settled → Option String
  | Settled.fulfilled e => some e.url
  | Settled.rejected => none

/-- Result of one drain: the `'offline-data'` cache contents afterwards and
the messages broadcast to every connected client. -/
structure DrainResult where
  queue  : List QEntry
  posted : List SyncMsg
deriving DecidableEq, Repr

/-- `syncOfflineTrades` (service-worker.js lines 182-237), normal path:
filter the cache keys to those whose URL includes `'/api/trades'`, attempt
every one independently under `Promise.allSettled`, delete each entry whose
attempt fulfilled, and broadcast a single
`SYNC_COMPLETED (synced, total)` message to all clients. -/
def syncOfflineTrades (serverOk : QEntry → Bool) (q : List QEntry) : DrainResult :=
  let tradeRequests := q.filter isTradeEntry
  let results := tradeRequests.map (attemptEntry serverOk)
  let deletedUrls := results.filterMap settledUrl
  let successCount := (results.filter Settled.isFulfilled).length
  { queue := q.filter (fun e => !(deletedUrls.contains e.url))
    posted := [SyncMsg.syncCompleted successCount tradeRequests.length] }

/-- The payload handed to `SAVE_OFFLINE_DATA`: its `type` field plus the
rest of the object, kept opaque. -/
structure OfflineData where
  dtype   : String
  payload : String
deriving DecidableEq, Repr

/-- `JSON.stringify(data)` modelled as an injective serialization of the
opaque payload (service-worker.js line 261). -/
def stringify (d : OfflineData) : String :=
  ("json(") ++ d.dtype ++ (",") ++ d.payload ++ (")")

/-- `Cache.put` on the offline queue: per the Cache API batch-operation
contract, the incoming entry replaces any entry with the same URL key and
is appended at the end of the key list. -/
def cachePutEntry (q : List QEntry) (e : QEntry) : List QEntry :=
  q.filter (fun x => !(x.url == e.url)) ++ [e]

/-- Look an entry up in the offline queue by its URL key. -/
def lookupByUrl (q : List QEntry) (u : String) : Option String :=
  (q.find? (fun e => e.url == u)).map QEntry.body

/-- The entry `saveOfflineData` stores for timestamp `t`: request URL
`/api/offline/${timestamp}` and body `JSON.stringify(data)`
(service-worker.js lines 259-261). -/
def mkOfflineEntry (t : Nat) (d : OfflineData) : QEntry :=
  { url := ("/api/offline/") ++ Nat.repr t, body := stringify d }

/-- `saveOfflineData` (service-worker.js lines 257-273): put the entry into
the `'offline-data'` cache and post `OFFLINE_DATA_SAVED (id := timestamp,
type := data.type)` to all clients. -/
def saveOfflineData (t : Nat) (d : OfflineData) (q : List QEntry) :
    List QEntry × SyncMsg :=
  (cachePutEntry q (mkOfflineEntry t d), SyncMsg.offlineDataSaved t d.dtype)

/-- A sequence of `SAVE_OFFLINE_DATA` deliveries, each with its `Date.now()`
timestamp, applied in order; collects the posted messages. -/
def enqueueSeq (q : List QEntry) : List (Nat × OfflineData) → List QEntry × List SyncMsg
  | [] => (q, [])
  | (t, d) :: evs =>
      let step := saveOfflineData t d q
      let rest := enqueueSeq step.1 evs
      (rest.1, step.2 :: rest.2)

/-- An intercepted request: method plus the `hostname` and `pathname`
components of its parsed URL (`new URL(event.request.url)`). -/
structure Request where
  method   : String
  hostname : String
  pathname : String
deriving DecidableEq, Repr

/-- A fetch `Response`: status code, `type` (`'basic'`, `'cors'`,
`'opaque'`, ...) and body. -/
structure Response where
  status : Nat
  rtype  : String
  body   : String
deriving DecidableEq, Repr

/-- `Response.ok`: status in the 2xx range. -/
def Response.ok (r : Response) : Bool :=
  decide (200 ≤ r.status) && decide (r.status < 300)

/-- Cache identity key for a request: its URL (host followed by path). -/
def Request.urlKey (r : Request) : String := r.hostname ++ r.pathname

/-- The whole Cache Storage: named caches in creation order. -/
abbrev CacheStore := List (String × List (String × Response))

/-- Overwrite-or-prepend a keyed entry in one cache's entry list
(`Cache.put` overwrite semantics: at most one live entry per key). -/
def nsPut (es : List (String × Response)) (k : String) (r : Response) :
    List (String × Response) :=
  (k, r) :: es.filter (fun p => !(p.1 == k))

/-- Look a key up in one cache's entry list. -/
def nsFind (es : List (String × Response)) (k : String) : Option Response :=
  (es.find? (fun p => p.1 == k)).map Prod.snd

/-- Entry list of the named cache (`caches.open`: absent = empty). -/
def getNs : CacheStore → String → List (String × Response)
  | [], _ => []
  | p :: rest, ns => if p.1 == ns then p.2 else getNs rest ns

/-- Replace the named cache's entry list, creating the cache at the end of
the name list when absent (`caches.open` creation order). -/
def setNs : CacheStore → String → List (String × Response) → CacheStore
  | [], ns, es => [(ns, es)]
  | p :: rest, ns, es =>
      if p.1 == ns then (p.1, es) :: rest else p :: setNs rest ns es

/-- `caches.open(ns)` followed by `cache.put(request, response)`.  Per the
Cache API contract, `put` rejects non-GET requests, leaving the store
unchanged (the source never handles that rejection). -/
def cachePutReq (s : CacheStore) (ns : String) (req : Request) (r : Response) :
    CacheStore :=
  if req.method == ("GET") then setNs s ns (nsPut (getNs s ns) req.urlKey r)
  else s

/-- `caches.match(request)`: search every named cache in order; per the
Cache API contract a non-GET request never matches
(default `ignoreMethod = false`). -/
def cachesMatch (s : CacheStore) (req : Request) : Option Response :=
  if req.method == ("GET") then
    match s with
    | [] => none
    | (_, es) :: rest =>
        match nsFind es req.urlKey with
        | some r => some r
        | none => cachesMatch rest req
  else none

/-- What the fetch-event handler produced for a request. -/
inductive FetchOutcome
  | resp (r : Response)
  | undef
  | err
deriving DecidableEq, Repr

/-- Whether the handler intercepted the request (`event.respondWith` was
called) or let it fall through to the default network path. -/
inductive HandlerOutcome
  | passthrough
  | handled (o : FetchOutcome)
deriving DecidableEq, Repr

/-- service-worker.js API-class test (line 42):
`url.pathname.includes('/api/') || url.hostname === 'fapi.binance.com'`. -/
def serviceWorkerApiClass (req : Request) : Bool :=
  jsIncludes req.pathname ("/api/") || req.hostname == ("fapi.binance.com")

/-- The service-worker.js fetch handler (lines 38-67).  `net` is the
outcome the network would give for this request now.
API branch: network first, caching status-200 responses into
`'neotrade-v1.0.0'`, falling back to `caches.match` on network failure
(which yields `undefined` on a miss).  Static branch: `caches.match`,
else plain `fetch` with no caching and no rejection handler. -/
def serviceWorkerHandleFetch (store : CacheStore) (net : Option Response)
    (req : Request) : HandlerOutcome × CacheStore :=
  if serviceWorkerApiClass req then
    match net with
    | some response =>
        (HandlerOutcome.handled (FetchOutcome.resp response),
         if response.status == 200 then
           cachePutReq store ("neotrade-v1.0.0") req response
         else store)
    | none =>
        match cachesMatch store req with
        | some r => (HandlerOutcome.handled (FetchOutcome.resp r), store)
        | none => (HandlerOutcome.handled FetchOutcome.undef, store)
  else
    match cachesMatch store req with
    | some r => (HandlerOutcome.handled (FetchOutcome.resp r), store)
    | none =>
        match net with
        | some response =>
            (HandlerOutcome.handled (FetchOutcome.resp response), store)
        | none => (HandlerOutcome.handled FetchOutcome.err, store)

/-- sw.js API-class test (lines 51-52):
`url.hostname.includes('binance.com') || url.hostname.includes('binance.me')`. -/
def swApiClass (req : Request) : Bool :=
  jsIncludes req.hostname ("binance.com") || jsIncludes req.hostname ("binance.me")

/-- The sw.js fetch handler (lines 44-104).  Non-GET requests return before
`respondWith` (line 48).  API branch: network first into
`'neotrade-dynamic-v4'` on `response.ok`, cache fallback on failure.
Static branch: on a cache hit return the cached response and refresh
`'neotrade-static-v4'` in the background when the network succeeds with
`ok`; on a miss fetch, caching only status-200 `'basic'` responses. -/
def swHandleFetch (store : CacheStore) (net : Option Response)
    (req : Request) : HandlerOutcome × CacheStore :=
  if !(req.method == ("GET")) then (HandlerOutcome.passthrough, store)
  else if swApiClass req then
    match net with
    | some response =>
        (HandlerOutcome.handled (FetchOutcome.resp response),
         if response.ok then cachePutReq store ("neotrade-dynamic-v4") req response
         else store)
    | none =>
        match cachesMatch store req with
        | some r => (HandlerOutcome.handled (FetchOutcome.resp r), store)
        | none => (HandlerOutcome.handled FetchOutcome.undef, store)
  else
    match cachesMatch store req with
    | some cached =>
        (HandlerOutcome.handled (FetchOutcome.resp cached),
         match net with
         | some response =>
             if response.ok then
               cachePutReq store ("neotrade-static-v4") req response
             else store
         | none => store)
    | none =>
        match net with
        | some response =>
            if response.status == 200 && response.rtype == ("basic") then
              (HandlerOutcome.handled (FetchOutcome.resp response),
               cachePutReq store ("neotrade-static-v4") req response)
            else (HandlerOutcome.handled (FetchOutcome.resp response), store)
        | none => (HandlerOutcome.handled FetchOutcome.err, store)

/-- The fixed static manifest of service-worker.js (lines 2-8,
`CACHE_URLS`). -/
def CACHE_URLS : List String :=
  [("/"), ("/index.html"), ("/manifest.json"),
   ("https://cdnjs.cloudflare.com/ajax/libs/font-awesome/6.4.0/css/all.min.css")]

/-- The fixed static manifest of sw.js (lines 6-12, `STATIC_ASSETS`). -/
def STATIC_ASSETS : List String :=
  [("/"), ("/index.html"), ("/manifest.json"),
   ("https://cdnjs.cloudflare.com/ajax/libs/font-awesome/6.4.0/css/all.min.css"),
   ("https://fonts.googleapis.com/css2?family=Inter:wght@300;400;500;600;700;800&display=swap")]

/-- Fetch every URL of the manifest; `none` as soon as any single fetch
fails (the fetch outcome for URL `u` being `net u`). -/
def fetchAllM (net : String → Option Response) :
    List String → Option (List (String × Response))
  | [] => some []
  | u :: us =>
      match net u with
      | none => none
      | some r => (fetchAllM net us).map (fun rest => (u, r) :: rest)

/-- `cache.addAll(urls)` on a cache with entries `es`.  Per the Cache API
contract `addAll` is atomic: it rejects — adding nothing — if any single
fetch fails, and stores every fetched response otherwise. -/
def addAll (es : List (String × Response)) (net : String → Option Response)
    (urls : List String) : Option (List (String × Response)) :=
  (fetchAllM net urls).map (fun frs => frs.foldl (fun acc ur => nsPut acc ur.1 ur.2) es)

/-- An install handler of the shape shared by both files:
`event.waitUntil(caches.open(ns).then(cache => cache.addAll(urls)))`
(service-worker.js lines 11-18 with `ns = 'neotrade-v1.0.0'`,
sw.js lines 15-23 with `ns = 'neotrade-static-v4'`).  Returns the store
afterwards and whether the install phase succeeded (the `waitUntil`
promise fulfilled, making the worker eligible to activate). -/
def installWith (ns : String) (urls : List String) (store : CacheStore)
    (net : String → Option Response) : CacheStore × Bool :=
  match addAll (getNs store ns) net urls with
  | some entries => (setNs store ns entries, true)
  | none => (setNs store ns (getNs store ns), false)

/-- The service-worker.js install handler (lines 11-18). -/
def serviceWorkerInstall : CacheStore → (String → Option Response) → CacheStore × Bool :=
  installWith ("neotrade-v1.0.0") CACHE_URLS

/-- The sw.js install handler (lines 15-23). -/
def swInstall : CacheStore → (String → Option Response) → CacheStore × Bool :=
  installWith ("neotrade-static-v4") STATIC_ASSETS

/-- The cache-deletion pass of the service-worker.js activate handler
(lines 24-32): every named cache whose name differs from
`'neotrade-v1.0.0'` is deleted. -/
def serviceWorkerActivate (store : CacheStore) : CacheStore :=
  store.filter (fun p => p.1 == ("neotrade-v1.0.0"))

/-- The cache-deletion pass of the sw.js activate handler (lines 29-38):
every named cache other than `'neotrade-static-v4'` and
`'neotrade-dynamic-v4'` is deleted. -/
def swActivate (store : CacheStore) : CacheStore :=
  store.filter (fun p => p.1 == ("neotrade-static-v4") || p.1 == ("neotrade-dynamic-v4"))

/-- Observable steps of an activate handler. -/
inductive ActStep
  | deleteStale
  | claimClients
deriving DecidableEq, Repr

/-- JavaScript event-loop ordering for an activate handler: every
synchronous statement of the handler body runs to completion before any
promise continuation the handler registered; `event.waitUntil` only
extends the event's lifetime, it never delays the following synchronous
statements. -/
def runActivateHandler (syncSteps chainedSteps : List ActStep) : List ActStep :=
  syncSteps ++ chainedSteps

/-- service-worker.js activate (lines 21-35): the handler body only calls
`event.waitUntil(...)`; `self.clients.claim()` sits in a `.then` chained
after the `Promise.all` of deletions, so it runs after cleanup completes. -/
def serviceWorkerActivateOrder : List ActStep :=
  runActivateHandler [] [ActStep.deleteStale, ActStep.claimClients]

/-- sw.js activate (lines 26-41): `self.clients.claim()` (line 40) is a
synchronous statement of the handler body, while the deletions sit behind
the asynchronous `caches.keys()` promise passed to `waitUntil`, so the
claim runs before cleanup completes. -/
def swActivateOrder : List ActStep :=
  runActivateHandler [ActStep.claimClients] [ActStep.deleteStale]

/-- The ordering property the spec demands of an activate handler: stale
cache deletion completes before the worker claims the open pages. -/
def cleanupBeforeClaim (order : List ActStep) : Prop :=
  order.indexOf ActStep.deleteStale < order.indexOf ActStep.claimClients

/-- The fields read out of a structured (JSON) push payload. -/
structure PushJson where
  title : Option String
  body  : Option String
  icon  : Option String
deriving DecidableEq, Repr

/-- The data carried by a push event: valid structured data, a payload
that is not valid JSON (`.json()` throws, `.text()` yields the raw text),
or no data at all. -/
inductive PushData
  | valid (j : PushJson)
  | malformed (raw : String)
  | absent
deriving DecidableEq, Repr

/-- A notification as shown by `registration.showNotification`. -/
structure Notification where
  title : String
  body  : Option String
  icon  : String
deriving DecidableEq, Repr

/-- The service-worker.js push handler (lines 87-123): try
`event.data.json()`; on a parse error fall back to
`{title: 'NeoTrade', body: event.data.text(), icon: '/icon-192.png'}`;
then show a notification titled `data.title || 'NeoTrade'` with
`data.icon || '/icon-192.png'`.  With no data at all, `event.data.json()`
throws a TypeError and the `catch` block's `event.data.text()` throws
again, so the handler itself fails (`none`: no notification shown). -/
def serviceWorkerPush (d : PushData) : Option Notification :=
  match d with
  | PushData.valid j =>
      some { title := j.title.getD ("NeoTrade"), body := j.body,
             icon := j.icon.getD ("/icon-192.png") }
  | PushData.malformed raw =>
      some { title := ("NeoTrade"), body := some raw, icon := ("/icon-192.png") }
  | PushData.absent => none

/-- The sw.js push handler (lines 115-145):
`const data = event.data ? event.data.json() : {}` with no try/catch, so a
payload that is not valid JSON throws out of the handler and no
notification is shown (`none`); otherwise show
`data.title || 'NeoTrade Alert'` with
`data.body || 'New trade notification'`. -/
def swPush (d : PushData) : Option Notification :=
  match d with
  | PushData.valid j =>
      some { title := j.title.getD ("NeoTrade Alert"),
             body := some (j.body.getD ("New trade notification")),
             icon := ("/icons/icon-192.png") }
  | PushData.malformed _ => none
  | PushData.absent =>
      some { title := ("NeoTrade Alert"),
             body := some ("New trade notification"),
             icon := ("/icons/icon-192.png") }

/-! Concrete sample data used to instantiate the theorems below. -/

def dA : OfflineData := { dtype := ("trade"), payload := ("alpha") }

def dB : OfflineData := { dtype := ("alert"), payload := ("beta") }

def demoQueue5 : List QEntry :=
  [{ url := ("/api/trades/1"), body := ("t1") },
   { url := ("/api/trades/2"), body := ("t2") },
   { url := ("/api/trades/3"), body := ("t3") },
   { url := ("/api/trades/4"), body := ("t4") },
   { url := ("/api/trades/5"), body := ("t5") }]

def demoServerOk : QEntry → Bool :=
  fun e => !(e.url == ("/api/trades/2") || e.url == ("/api/trades/4"))

def demoOfflineQueue : List QEntry :=
  [mkOfflineEntry 100 dA, mkOfflineEntry 200 dB]

def demoCached : Response := { status := 200, rtype := ("basic"), body := ("cached-body") }

def demoFresh : Response := { status := 200, rtype := ("basic"), body := ("fresh-body") }

def demoTradeResp : Response := { status := 200, rtype := ("basic"), body := stringify dA }

def demoApiReq : Request :=
  { method := ("GET"), hostname := ("app.example.com"), pathname := ("/api/positions") }

def demoBinanceReq : Request :=
  { method := ("GET"), hostname := ("fapi.binance.com"), pathname := ("/fapi/v1/ticker") }

def demoPostReq : Request :=
  { method := ("POST"), hostname := ("app.example.com"), pathname := ("/api/trades") }

def demoStaticReq : Request :=
  { method := ("GET"), hostname := ("app.example.com"), pathname := ("/index.html") }

def demoApiStore : CacheStore :=
  [(("neotrade-v1.0.0"), [(demoApiReq.urlKey, demoCached)])]

def demoDynStore : CacheStore :=
  [(("neotrade-dynamic-v4"), [(demoBinanceReq.urlKey, demoCached)])]

def demoStaticStore : CacheStore :=
  [(("neotrade-v1.0.0"), [(demoStaticReq.urlKey, demoCached)])]

def demoSwStaticStore : CacheStore :=
  [(("neotrade-static-v4"), [(demoStaticReq.urlKey, demoCached)])]

def demoC3Store : CacheStore :=
  [(("neotrade-v1.0.0"), []),
   (("offline-data"), [(("/api/trades/1"), demoTradeResp)])]

def demoNetOk : String → Option Response := fun _ => some demoFresh

def demoNetFailRoot : String → Option Response :=
  fun u => if u == ("/") then none else some demoFresh

/-! Helper lemmas. -/

theorem listStartsWith_mem {s pat : List Char} (h : listStartsWith s pat = true) :
    ∀ c ∈ pat, c ∈ s := by
  induction pat generalizing s with
  | nil => intro c hc; cases hc
  | cons b bs ih =>
      cases s with
      | nil => simp [listStartsWith] at h
      | cons a as =>
          rw [listStartsWith, Bool.and_eq_true] at h
          intro c hc
          rcases List.mem_cons.mp hc with hcb | hcbs
          · subst hcb
            have hab : a = c := by
              have h1 := h.1
              exact beq_iff_eq.mp h1
            exact hab ▸ List.mem_cons_self a as
          · exact List.mem_cons_of_mem a (ih h.2 c hcbs)

theorem charsContain_mem {pat s : List Char} (h : charsContain pat s = true) :
    ∀ c ∈ pat, c ∈ s := by
  induction s with
  | nil =>
      intro c hc
      cases pat with
      | nil => cases hc
      | cons b bs => simp [charsContain, listStartsWith] at h
  | cons a t ih =>
      rw [charsContain, Bool.or_eq_true] at h
      intro c hc
      rcases h with h1 | h2
      · exact listStartsWith_mem h1 c hc
      · exact List.mem_cons_of_mem a (ih h2 c hc)

theorem digitChar_isDigit {m : Nat} (h : m < 10) : (Nat.digitChar m).isDigit = true := by
  interval_cases m <;> decide

theorem toDigitsCore_isDigit :
    ∀ (fuel n : Nat) (ds : List Char), (∀ c ∈ ds, c.isDigit = true) →
      ∀ c ∈ Nat.toDigitsCore 10 fuel n ds, c.isDigit = true := by
  intro fuel
  induction fuel with
  | zero =>
      intro n ds hds c hc
      exact hds c hc
  | succ fuel ih =>
      intro n ds hds c hc
      rw [Nat.toDigitsCore] at hc
      have hext : ∀ x ∈ Nat.digitChar (n % 10) :: ds, x.isDigit = true := by
        intro x hx
        rcases List.mem_cons.mp hx with hx1 | hx2
        · subst hx1; exact digitChar_isDigit (Nat.mod_lt _ (by decide))
        · exact hds x hx2
      by_cases h10 : n / 10 = 0
      · rw [if_pos h10] at hc
        exact hext c hc
      · rw [if_neg h10] at hc
        exact ih (n / 10) _ hext c hc

theorem repr_data_isDigit (n : Nat) : ∀ c ∈ (Nat.repr n).data, c.isDigit = true := by
  intro c hc
  have h : (Nat.repr n).data = Nat.toDigitsCore 10 (n + 1) n [] := rfl
  rw [h] at hc
  exact toDigitsCore_isDigit (n + 1) n [] (by intro x hx; cases hx) c hc

theorem string_data_append (s t : String) : (s ++ t).data = s.data ++ t.data := rfl

theorem offline_url_not_trade (n : Nat) :
    jsIncludes (("/api/offline/") ++ Nat.repr n) ("/api/trades") = false := by
  cases hjs : jsIncludes (("/api/offline/") ++ Nat.repr n) ("/api/trades") with
  | false => rfl
  | true =>
      exfalso
      have h' : charsContain (String.data ("/api/trades"))
          (String.data (("/api/offline/") ++ Nat.repr n)) = true := hjs
      have hr : ('r' : Char) ∈ (String.data (("/api/offline/") ++ Nat.repr n)) :=
        charsContain_mem h' 'r' (by decide)
      rw [string_data_append] at hr
      rcases List.mem_append.mp hr with h1 | h2
      · revert h1; decide
      · exact absurd (repr_data_isDigit n 'r' h2) (by decide)

theorem isTradeEntry_mkOfflineEntry (t : Nat) (d : OfflineData) :
    isTradeEntry (mkOfflineEntry t d) = false :=
  offline_url_not_trade t

theorem isFulfilled_attempt (ok : QEntry → Bool) (e : QEntry) :
    Settled.isFulfilled (attemptEntry ok e) = ok e := by
  cases h : ok e <;> simp [attemptEntry, h, Settled.isFulfilled]

theorem settledUrl_attempt (ok : QEntry → Bool) (e : QEntry) :
    settledUrl (attemptEntry ok e) = if ok e then some e.url else none := by
  cases h : ok e <;> simp [attemptEntry, h, settledUrl]

theorem length_fulfilled (ok : QEntry → Bool) (l : List QEntry) :
    ((l.map (attemptEntry ok)).filter Settled.isFulfilled).length = l.countP ok := by
  rw [List.filter_map, List.length_map, ← List.countP_eq_length_filter]
  exact List.countP_congr (fun e _ => by simp [Function.comp, isFulfilled_attempt])

theorem mem_deletedUrls (ok : QEntry → Bool) (l : List QEntry) (u : String) :
    u ∈ (l.map (attemptEntry ok)).filterMap settledUrl ↔
      ∃ e, e ∈ l ∧ ok e = true ∧ e.url = u := by
  rw [List.filterMap_map]
  constructor
  · intro hu
    rcases List.mem_filterMap.mp hu with ⟨e, he, hx⟩
    rw [Function.comp_apply, settledUrl_attempt] at hx
    by_cases h : ok e = true
    · rw [if_pos h] at hx
      exact ⟨e, he, h, Option.some.inj hx⟩
    · rw [if_neg h] at hx
      cases hx
  · rintro ⟨e, he, hok, hu⟩
    exact List.mem_filterMap.mpr
      ⟨e, he, by rw [Function.comp_apply, settledUrl_attempt, if_pos hok, hu]⟩

/-- C1: during a drain, every selected pending entry is attempted
independently — the queue afterwards excludes exactly those trade entries
whose own server round-trip succeeded (one entry's failure never removes
or blocks another), failed entries remain, and exactly one
`SYNC_COMPLETED (synced, total)` summary message is broadcast. -/
theorem c1_drain_isolated_failures (serverOk : QEntry → Bool) (q : List QEntry)
    (hnd : (q.map QEntry.url).Nodup) :
    (∀ e ∈ q, isTradeEntry e = true → serverOk e = true →
        e ∉ (syncOfflineTrades serverOk q).queue) ∧
    (∀ e ∈ q, isTradeEntry e = true → serverOk e = false →
        e ∈ (syncOfflineTrades serverOk q).queue) ∧
    (∀ e ∈ q, isTradeEntry e = false → e ∈ (syncOfflineTrades serverOk q).queue) ∧
    (syncOfflineTrades serverOk q).posted =
      [SyncMsg.syncCompleted ((q.filter isTradeEntry).countP serverOk)
        (q.filter isTradeEntry).length] := by
  have hinj := List.inj_on_of_nodup_map hnd
  have hqueue : (syncOfflineTrades serverOk q).queue =
      q.filter (fun e =>
        !(((q.filter isTradeEntry).map (attemptEntry serverOk)).filterMap
            settledUrl).contains e.url) := rfl
  have hmemD : ∀ u : String,
      (u ∈ ((q.filter isTradeEntry).map (attemptEntry serverOk)).filterMap settledUrl) ↔
        ∃ e, e ∈ q ∧ isTradeEntry e = true ∧ serverOk e = true ∧ e.url = u := by
    intro u
    rw [mem_deletedUrls]
    constructor
    · rintro ⟨e, he, hok, hu⟩
      rcases List.mem_filter.mp he with ⟨heq, htr⟩
      exact ⟨e, heq, htr, hok, hu⟩
    · rintro ⟨e, he, htr, hok, hu⟩
      exact ⟨e, List.mem_filter.mpr ⟨he, htr⟩, hok, hu⟩
  refine ⟨?_, ?_, ?_, ?_⟩
  · intro e he htr hok hmem
    rw [hqueue] at hmem
    rcases List.mem_filter.mp hmem with ⟨_, hpred⟩
    have hin : e.url ∈ ((q.filter isTradeEntry).map (attemptEntry serverOk)).filterMap
        settledUrl := (hmemD e.url).mpr ⟨e, he, htr, hok, rfl⟩
    have hcontains : (((q.filter isTradeEntry).map (attemptEntry serverOk)).filterMap
        settledUrl).contains e.url = true := List.elem_iff.mpr hin
    rw [hcontains] at hpred
    exact absurd hpred (by decide)
  · intro e he htr hok
    rw [hqueue]
    refine List.mem_filter.mpr ⟨he, ?_⟩
    have hnotin : e.url ∉ ((q.filter isTradeEntry).map (attemptEntry serverOk)).filterMap
        settledUrl := by
      intro hmem
      rcases (hmemD e.url).mp hmem with ⟨e2, he2, _, hok2, hu2⟩
      have he2e : e2 = e := hinj he2 he hu2
      rw [he2e] at hok2
      rw [hok2] at hok
      cases hok
    have hcontains : (((q.filter isTradeEntry).map (attemptEntry serverOk)).filterMap
        settledUrl).contains e.url = false := by
      cases hc : (((q.filter isTradeEntry).map (attemptEntry serverOk)).filterMap
          settledUrl).contains e.url
      · rfl
      · exact absurd (List.elem_iff.mp hc) hnotin
    rw [hcontains]
    rfl
  · intro e he htr
    rw [hqueue]
    refine List.mem_filter.mpr ⟨he, ?_⟩
    have hnotin : e.url ∉ ((q.filter isTradeEntry).map (attemptEntry serverOk)).filterMap
        settledUrl := by
      intro hmem
      rcases (hmemD e.url).mp hmem with ⟨e2, he2, htr2, _, hu2⟩
      have he2e : e2 = e := hinj he2 he hu2
      rw [he2e] at htr2
      rw [htr2] at htr
      cases htr
    have hcontains : (((q.filter isTradeEntry).map (attemptEntry serverOk)).filterMap
        settledUrl).contains e.url = false := by
      cases hc : (((q.filter isTradeEntry).map (attemptEntry serverOk)).filterMap
          settledUrl).contains e.url
      · rfl
      · exact absurd (List.elem_iff.mp hc) hnotin
    rw [hcontains]
    rfl
  · show [SyncMsg.syncCompleted
        (((q.filter isTradeEntry).map (attemptEntry serverOk)).filter
          Settled.isFulfilled).length (q.filter isTradeEntry).length] = _
    rw [length_fulfilled]

/-- Witness for C1: the spec's 3-of-5 scenario — entries 2 and 4 fail,
the summary is `SYNC_COMPLETED (3, 5)`, entry 2 stays queued and entry 1
is deleted. -/
theorem c1_drain_witness :
    (syncOfflineTrades demoServerOk demoQueue5).posted = [SyncMsg.syncCompleted 3 5] ∧
    { url := ("/api/trades/2"), body := ("t2") } ∈
      (syncOfflineTrades demoServerOk demoQueue5).queue ∧
    { url := ("/api/trades/1"), body := ("t1") } ∉
      (syncOfflineTrades demoServerOk demoQueue5).queue := by
  have h := c1_drain_isolated_failures demoServerOk demoQueue5 (by decide)
  refine ⟨?_, ?_, ?_⟩
  · rw [h.2.2.2]; decide
  · exact h.2.1 _ (by decide) (by decide) (by decide)
  · exact h.1 _ (by decide) (by decide) (by decide)

/-- C4: every `SAVE_OFFLINE_DATA` payload is keyed under
`/api/offline/(timestamp)`, which never contains `/api/trades`; a drain
over a queue holding only such entries attempts nothing, broadcasts
`SYNC_COMPLETED (0, 0)` and leaves every entry unchanged. -/
theorem c4_offline_entries_not_drained (serverOk : QEntry → Bool) (q : List QEntry)
    (h : ∀ e ∈ q, ∃ t d, e = mkOfflineEntry t d) :
    q.filter isTradeEntry = [] ∧
    syncOfflineTrades serverOk q =
      { queue := q, posted := [SyncMsg.syncCompleted 0 0] } := by
  have hfil : q.filter isTradeEntry = [] := by
    rw [List.filter_eq_nil_iff]
    intro e he
    rcases h e he with ⟨t, d, rfl⟩
    simp [isTradeEntry_mkOfflineEntry]
  refine ⟨hfil, ?_⟩
  have hred : syncOfflineTrades serverOk q =
      { queue := q.filter (fun e =>
          !((((q.filter isTradeEntry).map (attemptEntry serverOk)).filterMap
              settledUrl).contains e.url)),
        posted := [SyncMsg.syncCompleted
          (((q.filter isTradeEntry).map (attemptEntry serverOk)).filter
            Settled.isFulfilled).length
          (q.filter isTradeEntry).length] } := rfl
  rw [hred, hfil]
  have hq : q.filter (fun e =>
      !((((([] : List QEntry)).map (attemptEntry serverOk)).filterMap
          settledUrl).contains e.url)) = q := by
    rw [List.filter_congr (fun e _ => rfl)]
    exact List.filter_true q
  rw [hq]
  rfl

/-- Witness for C4: a queue built by two `SAVE_OFFLINE_DATA` deliveries is
untouched by a drain, which reports zero synced of zero total. -/
theorem c4_offline_drain_witness :
    syncOfflineTrades demoServerOk demoOfflineQueue =
      { queue := demoOfflineQueue, posted := [SyncMsg.syncCompleted 0 0] } := by
  have h := c4_offline_entries_not_drained demoServerOk demoOfflineQueue (by
    intro e he
    rcases List.mem_cons.mp he with h1 | h2
    · exact ⟨100, dA, h1⟩
    · rcases List.mem_cons.mp h2 with h3 | h4
      · exact ⟨200, dB, h3⟩
      · cases h4)
  exact h.2

theorem nsFind_nsPut_self (es : List (String × Response)) (k : String) (r : Response) :
    nsFind (nsPut es k r) k = some r := by
  simp [nsFind, nsPut]

theorem getNs_setNs (s : CacheStore) (ns : String) (es : List (String × Response)) :
    getNs (setNs s ns es) ns = es := by
  induction s with
  | nil => simp [getNs, setNs]
  | cons p rest ih =>
      by_cases hp : (p.1 == ns) = true
      · simp [setNs, getNs, hp]
      · have hp' : (p.1 == ns) = false := by
          cases hc : p.1 == ns
          · rfl
          · exact absurd hc hp
        simp [setNs, getNs, hp', ih]

theorem lookup_put (q : List QEntry) (e : QEntry) :
    lookupByUrl (cachePutEntry q e) e.url = some e.body := by
  unfold cachePutEntry lookupByUrl
  rw [List.find?_append]
  have h1 : (q.filter (fun x => !(x.url == e.url))).find? (fun x => x.url == e.url) =
      none := by
    rw [List.find?_eq_none]
    intro x hx
    rcases List.mem_filter.mp hx with ⟨_, hpx⟩
    simp at hpx
    simp [hpx]
  rw [h1]
  simp

theorem cachesMatch_non_get (store : CacheStore) (req : Request)
    (h : (req.method == ("GET")) = false) : cachesMatch store req = none := by
  cases store with
  | nil => simp [cachesMatch, h]
  | cons p rest => simp [cachesMatch, h]

theorem cachePutReq_non_get (store : CacheStore) (ns : String) (req : Request)
    (r : Response) (h : (req.method == ("GET")) = false) :
    cachePutReq store ns req r = store := by
  simp [cachePutReq, h]

/-- C2 counterexample: an API-class request whose network fetch fails and
that has no cached entry resolves with `undefined` (no response) in both
files — the failure does not propagate as an error. -/
theorem c2_counterexample :
    serviceWorkerHandleFetch [] none demoApiReq =
      (HandlerOutcome.handled FetchOutcome.undef, []) ∧
    swHandleFetch [] none demoBinanceReq =
      (HandlerOutcome.handled FetchOutcome.undef, []) ∧
    FetchOutcome.undef ≠ FetchOutcome.err := by decide

/-- C2 (amended): for an API-class request whose network fetch fails, a
cached entry for the request's key is returned when present; when absent
the handler resolves with `undefined` (which the platform surfaces as a
failed request), not with a propagated error. -/
theorem c2_network_first_fallback (store : CacheStore) (req req' : Request)
    (h1 : serviceWorkerApiClass req = true)
    (h2 : req'.method = ("GET")) (h3 : swApiClass req' = true) :
    ((∀ r, cachesMatch store req = some r →
        serviceWorkerHandleFetch store none req =
          (HandlerOutcome.handled (FetchOutcome.resp r), store)) ∧
     (cachesMatch store req = none →
        serviceWorkerHandleFetch store none req =
          (HandlerOutcome.handled FetchOutcome.undef, store))) ∧
    ((∀ r, cachesMatch store req' = some r →
        swHandleFetch store none req' =
          (HandlerOutcome.handled (FetchOutcome.resp r), store)) ∧
     (cachesMatch store req' = none →
        swHandleFetch store none req' =
          (HandlerOutcome.handled FetchOutcome.undef, store))) := by
  refine ⟨⟨?_, ?_⟩, ⟨?_, ?_⟩⟩
  · intro r hr
    simp [serviceWorkerHandleFetch, h1, hr]
  · intro hr
    simp [serviceWorkerHandleFetch, h1, hr]
  · intro r hr
    simp [swHandleFetch, h2, h3, hr]
  · intro hr
    simp [swHandleFetch, h2, h3, hr]

/-- Witness for C2 (amended): concrete offline API requests with a prior
cached entry get the cached response back in both files. -/
theorem c2_fallback_witness :
    serviceWorkerHandleFetch demoApiStore none demoApiReq =
      (HandlerOutcome.handled (FetchOutcome.resp demoCached), demoApiStore) ∧
    swHandleFetch demoDynStore none demoBinanceReq =
      (HandlerOutcome.handled (FetchOutcome.resp demoCached), demoDynStore) := by
  have ha := c2_network_first_fallback demoApiStore demoApiReq demoBinanceReq
    (by decide) (by decide) (by decide)
  have hb := c2_network_first_fallback demoDynStore demoApiReq demoBinanceReq
    (by decide) (by decide) (by decide)
  exact ⟨ha.1.1 demoCached (by decide), hb.2.1 demoCached (by decide)⟩

/-- C3 (code bug): the service-worker.js activate handler deletes every
cache whose name differs from `'neotrade-v1.0.0'`, so the
`'offline-data'` queue namespace — whose entries are meant to be deleted
only by a confirmed sync in `syncOfflineTrades` — is wiped by activation:
a queued trade present before activation is gone afterwards. -/
theorem c3_activation_wipes_offline_queue :
    getNs demoC3Store ("offline-data") = [(("/api/trades/1"), demoTradeResp)] ∧
    serviceWorkerActivate demoC3Store = [(("neotrade-v1.0.0"), [])] ∧
    getNs (serviceWorkerActivate demoC3Store) ("offline-data") = [] := by decide

/-- C5 counterexample: service-worker.js has no method guard — a POST API
request is intercepted by the network-first strategy (`respondWith` is
called), so it does not pass straight through uncaught. -/
theorem c5_counterexample :
    serviceWorkerHandleFetch [] (some demoFresh) demoPostReq =
      (HandlerOutcome.handled (FetchOutcome.resp demoFresh), []) ∧
    HandlerOutcome.handled (FetchOutcome.resp demoFresh) ≠
      HandlerOutcome.passthrough := by decide

/-- C5 (amended): a non-GET request is never written to nor served from
any cache by either worker, and sw.js passes it straight through; but
service-worker.js still intercepts it — its response is the network result
(or `undefined`/an error when the network fails), never a cached one, and
the store is unchanged because the platform rejects non-GET cache writes. -/
theorem c5_non_get_requests (store : CacheStore) (net : Option Response) (req : Request)
    (h : ¬ (req.method = ("GET"))) :
    swHandleFetch store net req = (HandlerOutcome.passthrough, store) ∧
    (serviceWorkerHandleFetch store net req).2 = store ∧
    (∀ r, net = some r → (serviceWorkerHandleFetch store net req).1 =
        HandlerOutcome.handled (FetchOutcome.resp r)) ∧
    (net = none →
      (serviceWorkerHandleFetch store net req).1 = HandlerOutcome.handled FetchOutcome.undef ∨
      (serviceWorkerHandleFetch store net req).1 = HandlerOutcome.handled FetchOutcome.err) := by
  have hb : (req.method == ("GET")) = false := by
    cases hc : req.method == ("GET")
    · rfl
    · exact absurd (beq_iff_eq.mp hc) h
  have hcm : cachesMatch store req = none := cachesMatch_non_get store req hb
  refine ⟨?_, ?_, ?_, ?_⟩
  · simp [swHandleFetch, hb]
  · by_cases hapi : serviceWorkerApiClass req = true
    · cases net with
      | some r => simp [serviceWorkerHandleFetch, hapi, cachePutReq, hb]
      | none => simp [serviceWorkerHandleFetch, hapi, hcm]
    · have hapi' : serviceWorkerApiClass req = false := by
        cases hc : serviceWorkerApiClass req
        · rfl
        · exact absurd hc hapi
      cases net with
      | some r => simp [serviceWorkerHandleFetch, hapi', hcm]
      | none => simp [serviceWorkerHandleFetch, hapi', hcm]
  · intro r hr
    subst hr
    by_cases hapi : serviceWorkerApiClass req = true
    · simp [serviceWorkerHandleFetch, hapi]
    · have hapi' : serviceWorkerApiClass req = false := by
        cases hc : serviceWorkerApiClass req
        · rfl
        · exact absurd hc hapi
      simp [serviceWorkerHandleFetch, hapi', hcm]
  · intro hr
    subst hr
    by_cases hapi : serviceWorkerApiClass req = true
    · left; simp [serviceWorkerHandleFetch, hapi, hcm]
    · have hapi' : serviceWorkerApiClass req = false := by
        cases hc : serviceWorkerApiClass req
        · rfl
        · exact absurd hc hapi
      right; simp [serviceWorkerHandleFetch, hapi', hcm]

/-- Witness for C5 (amended): a concrete POST request passes through sw.js
untouched and leaves the service-worker.js store unchanged. -/
theorem c5_non_get_witness :
    swHandleFetch demoApiStore (some demoFresh) demoPostReq =
      (HandlerOutcome.passthrough, demoApiStore) ∧
    (serviceWorkerHandleFetch demoApiStore (some demoFresh) demoPostReq).2 =
      demoApiStore := by
  have h := c5_non_get_requests demoApiStore (some demoFresh) demoPostReq (by decide)
  exact ⟨h.1, h.2.1⟩

/-- C6 counterexample: in service-worker.js a static-asset cache hit
returns the cached response but issues no background refresh — even a
successful fresh network response never overwrites the cached entry. -/
theorem c6_counterexample :
    serviceWorkerHandleFetch demoStaticStore (some demoFresh) demoStaticReq =
      (HandlerOutcome.handled (FetchOutcome.resp demoCached), demoStaticStore) ∧
    nsFind (getNs (serviceWorkerHandleFetch demoStaticStore (some demoFresh)
        demoStaticReq).2 ("neotrade-v1.0.0")) demoStaticReq.urlKey = some demoCached ∧
    demoCached ≠ demoFresh := by decide

/-- C6 (amended): in sw.js a static-class cache hit returns the cached
response whatever the network does (the response does not wait on the
refresh), and a successful `ok` refresh overwrites the static namespace
entry; in service-worker.js the same hit returns the cached response with
no cache update at all. -/
theorem c6_stale_while_revalidate (store : CacheStore) (req : Request) (cached : Response)
    (hGet : req.method = ("GET")) (hsw : swApiClass req = false)
    (hhit : cachesMatch store req = some cached) :
    (∀ net, (swHandleFetch store net req).1 =
        HandlerOutcome.handled (FetchOutcome.resp cached)) ∧
    (∀ r, r.ok = true →
        nsFind (getNs (swHandleFetch store (some r) req).2 ("neotrade-static-v4"))
          req.urlKey = some r) ∧
    (serviceWorkerApiClass req = false →
      ∀ net, serviceWorkerHandleFetch store net req =
        (HandlerOutcome.handled (FetchOutcome.resp cached), store)) := by
  refine ⟨?_, ?_, ?_⟩
  · intro net
    simp [swHandleFetch, hGet, hsw, hhit]
  · intro r hok
    have h2 : (swHandleFetch store (some r) req).2 =
        cachePutReq store ("neotrade-static-v4") req r := by
      simp [swHandleFetch, hGet, hsw, hhit, hok]
    rw [h2]
    have hput : cachePutReq store ("neotrade-static-v4") req r =
        setNs store ("neotrade-static-v4")
          (nsPut (getNs store ("neotrade-static-v4")) req.urlKey r) := by
      simp [cachePutReq, hGet]
    rw [hput, getNs_setNs, nsFind_nsPut_self]
  · intro hserv net
    simp [serviceWorkerHandleFetch, hserv, hhit]

/-- Witness for C6 (amended): a concrete sw.js static hit returns the
cached body while the fresh `ok` response replaces the stored entry. -/
theorem c6_revalidate_witness :
    (swHandleFetch demoSwStaticStore (some demoFresh) demoStaticReq).1 =
      HandlerOutcome.handled (FetchOutcome.resp demoCached) ∧
    nsFind (getNs (swHandleFetch demoSwStaticStore (some demoFresh) demoStaticReq).2
        ("neotrade-static-v4")) demoStaticReq.urlKey = some demoFresh := by
  have h := c6_stale_while_revalidate demoSwStaticStore demoStaticReq demoCached
    (by decide) (by decide) (by decide)
  exact ⟨h.1 (some demoFresh), h.2.1 demoFresh (by decide)⟩

/-- C7 counterexample: two `SAVE_OFFLINE_DATA` deliveries in the same
millisecond (`Date.now()` returning 5 twice) are assigned the same id 5 —
ids are not unique — and the second entry overwrites the first, which is
silently lost. -/
theorem c7_counterexample :
    (enqueueSeq [] [(5, dA), (5, dB)]).2 =
      [SyncMsg.offlineDataSaved 5 (("trade")), SyncMsg.offlineDataSaved 5 (("alert"))] ∧
    (enqueueSeq [] [(5, dA), (5, dB)]).1 = [mkOfflineEntry 5 dB] ∧
    ¬ ([5, 5] : List Nat).Nodup := by decide

theorem enqueueSeq_messages (evs : List (Nat × OfflineData)) : ∀ q0 : List QEntry,
    (enqueueSeq q0 evs).2 = evs.map (fun e => SyncMsg.offlineDataSaved e.1 e.2.dtype) := by
  induction evs with
  | nil => intro q0; rfl
  | cons e evs ih =>
      intro q0
      cases e with
      | mk t d => simp [enqueueSeq, saveOfflineData, ih]

/-- C7 (amended): the assigned id is the enqueue timestamp: when
successive timestamps strictly increase the ids are unique and
monotonically non-decreasing, every enqueue posts
`OFFLINE_DATA_SAVED (id, type)` with its assigned id, and each enqueue
stores the serialized trade under its id's key; equal timestamps assign
the same id twice and the later enqueue overwrites the earlier entry. -/
theorem c7_enqueue_ids (q0 : List QEntry) (evs : List (Nat × OfflineData))
    (hmono : (evs.map Prod.fst).Pairwise (· < ·)) :
    (enqueueSeq q0 evs).2 =
      evs.map (fun e => SyncMsg.offlineDataSaved e.1 e.2.dtype) ∧
    (evs.map Prod.fst).Nodup ∧
    (evs.map Prod.fst).Pairwise (· ≤ ·) ∧
    (∀ q t d, lookupByUrl (saveOfflineData t d q).1 (("/api/offline/") ++ Nat.repr t) =
      some (stringify d)) := by
  refine ⟨enqueueSeq_messages evs q0, ?_, ?_, ?_⟩
  · exact hmono.imp (fun h => Nat.ne_of_lt h)
  · exact hmono.imp (fun h => Nat.le_of_lt h)
  · intro q t d
    exact lookup_put q (mkOfflineEntry t d)

/-- Witness for C7 (amended): two enqueues at increasing timestamps get
distinct ids, both notifications carry the assigned ids, and the first
entry is retrievable under its key. -/
theorem c7_enqueue_witness :
    (enqueueSeq [] [(100, dA), (200, dB)]).2 =
      [SyncMsg.offlineDataSaved 100 (("trade")), SyncMsg.offlineDataSaved 200 (("alert"))] ∧
    ([100, 200] : List Nat).Nodup ∧
    lookupByUrl (saveOfflineData 100 dA []).1 (("/api/offline/") ++ Nat.repr 100) =
      some (stringify dA) := by
  have h := c7_enqueue_ids [] [(100, dA), (200, dB)] (by decide)
  refine ⟨?_, ?_, ?_⟩
  · rw [h.1]; rfl
  · exact h.2.1
  · exact h.2.2.2 [] 100 dA

/-- C8 counterexample: in the sw.js activate handler, `clients.claim()`
is invoked synchronously from the handler body and therefore runs before
the asynchronous stale-cache cleanup completes. -/
theorem c8_counterexample : ¬ cleanupBeforeClaim swActivateOrder := by
  unfold cleanupBeforeClaim
  decide

/-- C8 (amended): in service-worker.js the stale-namespace deletion
completes before `clients.claim()` (the claim is chained after the
`Promise.all` of deletions); in sw.js `clients.claim()` is invoked
synchronously, before cleanup completes, so the happens-before edge the
spec demands holds only for service-worker.js. -/
theorem c8_cleanup_before_claim :
    cleanupBeforeClaim serviceWorkerActivateOrder ∧
    ¬ cleanupBeforeClaim swActivateOrder := by
  unfold cleanupBeforeClaim
  decide

/-- C10 counterexample: sw.js's push handler has no try/catch around
`event.data.json()`, so a payload that is not valid JSON makes the
handler throw and no notification is shown. -/
theorem c10_counterexample : swPush (PushData.malformed ("hello offline"))  = none := rfl

/-- C10 (amended): service-worker.js's push handler never fails on a
malformed payload — it falls back to a plain-text notification whose body
is the raw payload text; sw.js propagates the parse error and shows no
notification. -/
theorem c10_malformed_push (raw : String) :
    serviceWorkerPush (PushData.malformed raw) =
      some { title := ("NeoTrade"), body := some raw, icon := ("/icon-192.png") } ∧
    swPush (PushData.malformed raw) = none := ⟨rfl, rfl⟩

theorem find?_filter_of_imp {α : Type} (l : List α) (p q : α → Bool)
    (h : ∀ x, p x = true → q x = true) : (l.filter q).find? p = l.find? p := by
  induction l with
  | nil => rfl
  | cons a l ih =>
      by_cases hq : q a = true
      · rw [List.filter_cons_of_pos hq]
        by_cases hp : p a = true
        · rw [List.find?_cons_of_pos _ hp, List.find?_cons_of_pos _ hp]
        · rw [List.find?_cons_of_neg _ hp, List.find?_cons_of_neg _ hp, ih]
      · have hp : ¬ (p a = true) := fun hpa => hq (h a hpa)
        rw [List.filter_cons_of_neg hq, List.find?_cons_of_neg _ hp, ih]

theorem nsFind_nsPut_ne (es : List (String × Response)) (k k' : String) (r : Response)
    (h : ¬ (k' = k)) : nsFind (nsPut es k r) k' = nsFind es k' := by
  unfold nsFind nsPut
  rw [List.find?_cons_of_neg]
  · rw [find?_filter_of_imp]
    intro x hx
    have hxk : x.1 = k' := beq_iff_eq.mp hx
    simp [hxk]
    exact fun hk => h hk
  · simp
    exact fun hkk => h hkk.symm

theorem foldl_nsPut_not_mem (frs : List (String × Response)) :
    ∀ (es : List (String × Response)) (u : String), u ∉ frs.map Prod.fst →
      nsFind (frs.foldl (fun acc ur => nsPut acc ur.1 ur.2) es) u = nsFind es u := by
  induction frs with
  | nil => intro es u _; rfl
  | cons p frs ih =>
      intro es u hu
      rw [List.foldl_cons]
      have hne : ¬ (u = p.1) := by
        intro h
        exact hu (by rw [List.map_cons]; exact h ▸ List.mem_cons_self _ _)
      have hrest : u ∉ frs.map Prod.fst := by
        intro hm
        exact hu (by rw [List.map_cons]; exact List.mem_cons_of_mem _ hm)
      rw [ih _ u hrest]
      exact nsFind_nsPut_ne es p.1 u p.2 hne

theorem fetchAllM_isSome (net : String → Option Response) (urls : List String) :
    (fetchAllM net urls).isSome = true ↔ ∀ u ∈ urls, (net u).isSome = true := by
  induction urls with
  | nil =>
      constructor
      · intro _ u hu; cases hu
      · intro _; rfl
  | cons u us ih =>
      constructor
      · intro h v hv
        rcases List.mem_cons.mp hv with h1 | h2
        · subst h1
          cases hn : net v with
          | none => simp [fetchAllM, hn] at h
          | some r => simp [hn]
        · cases hn : net u with
          | none => simp [fetchAllM, hn] at h
          | some r =>
              cases hf : fetchAllM net us with
              | none => simp [fetchAllM, hn, hf] at h
              | some frs => exact ih.mp (by simp [hf]) v h2
      · intro hall
        cases hn : net u with
        | none =>
            have hu := hall u (List.mem_cons_self u us)
            rw [hn] at hu
            cases hu
        | some r =>
            have hus := ih.mpr (fun v hv => hall v (List.mem_cons_of_mem u hv))
            cases hf : fetchAllM net us with
            | none => rw [hf] at hus; cases hus
            | some frs => simp [fetchAllM, hn, hf]

theorem fetchAllM_sound (net : String → Option Response) :
    ∀ (urls : List String) (frs : List (String × Response)),
      fetchAllM net urls = some frs →
      frs.map Prod.fst = urls ∧ ∀ p ∈ frs, net p.1 = some p.2 := by
  intro urls
  induction urls with
  | nil =>
      intro frs h
      simp [fetchAllM] at h
      subst h
      exact ⟨rfl, by intro p hp; cases hp⟩
  | cons u us ih =>
      intro frs h
      cases hn : net u with
      | none => simp [fetchAllM, hn] at h
      | some r =>
          cases hf : fetchAllM net us with
          | none => simp [fetchAllM, hn, hf] at h
          | some frs2 =>
              have hfrs : frs = (u, r) :: frs2 := by
                simp [fetchAllM, hn, hf] at h
                exact h.symm
              subst hfrs
              rcases ih frs2 hf with ⟨hkeys, hvals⟩
              refine ⟨by rw [List.map_cons, hkeys], ?_⟩
              intro p hp
              rcases List.mem_cons.mp hp with h1 | h2
              · subst h1; exact hn
              · exact hvals p h2

theorem foldl_nsPut_lookup (net : String → Option Response) :
    ∀ (urls : List String) (frs es : List (String × Response)),
      fetchAllM net urls = some frs →
      ∀ u ∈ urls, nsFind (frs.foldl (fun acc ur => nsPut acc ur.1 ur.2) es) u = net u := by
  intro urls
  induction urls with
  | nil => intro frs es _ u hu; cases hu
  | cons v us ih =>
      intro frs es h u hu
      cases hn : net v with
      | none => simp [fetchAllM, hn] at h
      | some r =>
          cases hf : fetchAllM net us with
          | none => simp [fetchAllM, hn, hf] at h
          | some frs2 =>
              have hfrs : frs = (v, r) :: frs2 := by
                simp [fetchAllM, hn, hf] at h
                exact h.symm
              subst hfrs
              rw [List.foldl_cons]
              by_cases hmem : u ∈ us
              · exact ih frs2 (nsPut es v r) hf u hmem
              · have huv : u = v := by
                  rcases List.mem_cons.mp hu with h1 | h2
                  · exact h1
                  · exact absurd h2 hmem
                subst huv
                have hkeys := (fetchAllM_sound net us frs2 hf).1
                have hnot : u ∉ frs2.map Prod.fst := by rw [hkeys]; exact hmem
                rw [foldl_nsPut_not_mem frs2 (nsPut es u r) u hnot]
                rw [nsFind_nsPut_self, hn]

theorem installWith_spec (ns : String) (urls : List String) (store : CacheStore)
    (net : String → Option Response) :
    (((installWith ns urls store net).2 = true) ↔ ∀ u ∈ urls, (net u).isSome = true) ∧
    ((installWith ns urls store net).2 = false →
      getNs (installWith ns urls store net).1 ns = getNs store ns) ∧
    ((installWith ns urls store net).2 = true →
      ∀ u ∈ urls, nsFind (getNs (installWith ns urls store net).1 ns) u = net u) := by
  cases hf : fetchAllM net urls with
  | none =>
      have hiw : installWith ns urls store net =
          (setNs store ns (getNs store ns), false) := by
        unfold installWith addAll
        rw [hf]
        rfl
      rw [hiw]
      refine ⟨?_, ?_, ?_⟩
      · simp only []
        constructor
        · intro h; cases h
        · intro hall
          have hs := (fetchAllM_isSome net urls).mpr hall
          rw [hf] at hs
          cases hs
      · intro _
        exact getNs_setNs store ns (getNs store ns)
      · intro h; cases h
  | some frs =>
      have hiw : installWith ns urls store net =
          (setNs store ns
            (frs.foldl (fun acc ur => nsPut acc ur.1 ur.2) (getNs store ns)), true) := by
        unfold installWith addAll
        rw [hf]
        rfl
      rw [hiw]
      refine ⟨?_, ?_, ?_⟩
      · constructor
        · intro _
          exact (fetchAllM_isSome net urls).mp (by rw [hf]; rfl)
        · intro _; rfl
      · intro h; cases h
      · intro _ u hu
        rw [getNs_setNs]
        exact foldl_nsPut_lookup net urls frs (getNs store ns) hf u hu

/-- C9: install is all-or-nothing in both files — the install phase
succeeds exactly when every manifest fetch succeeds; on any failure the
static namespace's entries are unchanged (no partial pre-population), and
on success every manifest URL's fetched response is stored, after which
the worker is eligible to activate. -/
theorem c9_install_all_or_nothing (store : CacheStore) (net : String → Option Response) :
    ((((serviceWorkerInstall store net).2 = true) ↔
        ∀ u ∈ CACHE_URLS, (net u).isSome = true) ∧
     ((serviceWorkerInstall store net).2 = false →
       getNs (serviceWorkerInstall store net).1 ("neotrade-v1.0.0") =
         getNs store ("neotrade-v1.0.0")) ∧
     ((serviceWorkerInstall store net).2 = true →
       ∀ u ∈ CACHE_URLS,
         nsFind (getNs (serviceWorkerInstall store net).1 ("neotrade-v1.0.0")) u =
           net u)) ∧
    ((((swInstall store net).2 = true) ↔
        ∀ u ∈ STATIC_ASSETS, (net u).isSome = true) ∧
     ((swInstall store net).2 = false →
       getNs (swInstall store net).1 ("neotrade-static-v4") =
         getNs store ("neotrade-static-v4")) ∧
     ((swInstall store net).2 = true →
       ∀ u ∈ STATIC_ASSETS,
         nsFind (getNs (swInstall store net).1 ("neotrade-static-v4")) u = net u)) :=
  ⟨installWith_spec ("neotrade-v1.0.0") CACHE_URLS store net,
   installWith_spec ("neotrade-static-v4") STATIC_ASSETS store net⟩

/-- Witness for C9: one failing manifest fetch makes service-worker.js's
install fail with an unchanged (still empty) namespace, while with every
fetch succeeding sw.js's install succeeds and stores the manifest. -/
theorem c9_install_witness :
    (serviceWorkerInstall [] demoNetFailRoot).2 = false ∧
    getNs (serviceWorkerInstall [] demoNetFailRoot).1 ("neotrade-v1.0.0") = [] ∧
    (swInstall [] demoNetOk).2 = true ∧
    nsFind (getNs (swInstall [] demoNetOk).1 ("neotrade-static-v4")) ("/") =
      some demoFresh := by
  have h1 := c9_install_all_or_nothing [] demoNetFailRoot
  have h2 := c9_install_all_or_nothing [] demoNetOk
  refine ⟨?_, ?_, ?_, ?_⟩
  · decide
  · exact h1.1.2.1 (by decide)
  · decide
  · exact h2.2.2.2 (by decide) ("/") (by decide)
